import Mathlib

/-!
# Verification of the lclip timeline-to-render-plan compiler

Shallow embedding of the core logic of the `lclip` short-form video editor:
the scene model (layers and clips with undo/redo), the clip split operation,
the geometry resolver (`computeClipFilter` / `evenFloor`), the preview
renderer's compositing order (`renderFrame`), and the server export pipeline
(`exportVideo`): video-clip collection, the audio filter chain, the mix
stage, and temp-directory cleanup.

JavaScript numbers are modelled as exact rationals (`ℚ`); the arithmetic the
embedded code performs (`+ - * / % min max Math.round Math.floor`) is exact
on the values relevant to the claims.  A JS field that may be `undefined`
and is read through `x || d` is modelled as a `ℚ` that defaults through
`jsOr` (`0` and `undefined` behave identically under `||`); a field read
through an `!== undefined` check is modelled as an `Option ℚ`.
-/
/-- JS `v || d` for numbers: `0` (and `undefined`, which we encode as `0`)
falls back to `d`. -/

def jsOr (v d : ℚ) : ℚ := if v = 0 then d else v

/-- JS `Math.round`: round half away from zero towards `+∞`
(`Math.round (-0.5) = 0`), i.e. `⌊x + 1/2⌋`. -/

def jsRound (q : ℚ) : ℤ := ⌊q + 1 / 2⌋

/-- A rational that is an integer (a JS number holding an integral value). -/

def IsInt (q : ℚ) : Prop := ∃ n : ℤ, q = (n : ℚ)

/-! ## Scene model: clips, layers, projects (§3 of the spec) -/

/-- The `type` tag of a clip (and of the layer that owns it). -/

inductive ClipType where
  | video
  | subtitle
  | audio
  deriving DecidableEq, Repr

/-- A clip record: the union of the fields the embedded operations read.
Absent optional numeric fields are encoded as `0` (read through `jsOr`);
`volume` is read through an `!== undefined` check and so stays an `Option`. -/

structure Clip where
  id : Nat := 0
  type : ClipType := .video
  startTime : ℚ := 0
  endTime : ℚ := 0
  srcStart : ℚ := 0
  srcEnd : ℚ := 0
  isFiltered : Bool := false
  x : ℚ := 0
  y : ℚ := 0
  width : ℚ := 0
  height : ℚ := 0
  volume : Option ℚ := none
  hasSrc : Bool := true
  deriving DecidableEq, Repr

/-- A layer: an ordered track of clips. -/

structure Layer where
  id : Nat := 0
  type : ClipType := .video
  order : ℤ := 0
  visible : Bool := true
  clips : List Clip := []
  deriving DecidableEq, Repr

/-- A project: layers plus output configuration. -/

structure Project where
  layers : List Layer := []
  outputWidth : ℚ := 1080
  outputHeight : ℚ := 1920
  fps : ℚ := 30
  sourceVideoDuration : ℚ := 0
  deriving DecidableEq, Repr

/-- `EditorState.getLayer`: first layer with the given id, `null` if absent. -/

def getLayer (p : Project) (layerId : Nat) : Option Layer :=
  p.layers.find? (fun l => l.id = layerId)

/-- `EditorState.getClip`: first clip with the given id in the layer found
by `getLayer`, `null` if either is absent. -/

def getClip (p : Project) (layerId clipId : Nat) : Option Clip :=
  (getLayer p layerId).bind (fun l => l.clips.find? (fun c => c.id = clipId))

/-- Replace the first element whose key matches `k` by its image under `f`
(the `findIndex`-then-assign pattern of `EditorState.updateClip`, and the
`find`-a-layer pattern of `getLayer`-based mutations).  No-op when no
element matches. -/

def replaceFirst {α : Type} (key : α → Nat) (k : Nat) (f : α → α) : List α → List α
  | [] => []
  | a :: rest => if key a = k then f a :: rest else a :: replaceFirst key k f rest

/-- `EditorState.updateClip layerId clipId updates` with `updates` given as a
function (the code shallow-merges an object; silently no-ops when the layer
or clip is missing). -/

def updateClipP (p : Project) (layerId clipId : Nat) (f : Clip → Clip) : Project :=
  let g := fun l : Layer => { l with clips := replaceFirst (·.id) clipId f l.clips }
  { p with layers := replaceFirst (·.id) layerId g p.layers }

/-- `EditorState.addClip layerId clip`: push onto the layer's clip array
(no-op when the layer is missing). -/

def addClipP (p : Project) (layerId : Nat) (c : Clip) : Project :=
  let g := fun l : Layer => { l with clips := l.clips ++ [c] }
  { p with layers := replaceFirst (·.id) layerId g p.layers }

/-! ## The split operation (editor.js `EditorState.on('splitClip')`) -/

/-- The `splitClip` event handler in `editor.js` (405–415): guard, compute
the split source point by the linear mapping, shorten the original clip in
place, and append the second half with a fresh id `newId`. -/

def splitClipOp (p : Project) (layerId clipId : Nat) (t : ℚ) (newId : Nat) : Project :=
  match getClip p layerId clipId with
  | none => p
  | some clip =>
    if t ≤ clip.startTime ∨ clip.endTime ≤ t then p
    else if clip.isFiltered then p
    else
      let ratio := (t - clip.startTime) / (clip.endTime - clip.startTime)
      let splitSrc := jsOr clip.srcStart 0 +
        (jsOr clip.srcEnd 0 - jsOr clip.srcStart 0) * ratio
      let newClip : Clip :=
        { clip with id := newId, startTime := t, endTime := clip.endTime, srcStart := splitSrc, srcEnd := clip.srcEnd }
      let upd := fun c : Clip => { c with endTime := t, srcEnd := splitSrc }
      addClipP (updateClipP p layerId clipId upd) layerId newClip

/-! ### List lemmas for `find?` and `replaceFirst` -/

/-- Witness clip for the split scenarios: scenario 2 of the spec. -/

def witClip : Clip := { id := 2, startTime := 0, endTime := 10, srcStart := 0, srcEnd := 10 }

/-- Witness project holding `witClip` on a single layer. -/

def witProj : Project := { layers := [{ id := 1, clips := [witClip] }] }

/-- `witClip` marked `isFiltered` (cut-protected). -/

def witClipF : Clip := { witClip with isFiltered := true }

/-- Witness project holding the filtered clip. -/

def witProjF : Project := { layers := [{ id := 1, clips := [witClipF] }] }

/-! ## Undo / redo (`EditorState` snapshot model, part_004 130–159) -/

/-- The editor-state fields relevant to history: the loaded project, the
undo and redo stacks of layer-list snapshots (head = most recent; the code
`push`es/`pop`s at the array end and `shift`s the oldest from the front),
and the current selection. -/

structure EditorSt where
  project : Option Project := none
  undoStack : List (List Layer) := []
  redoStack : List (List Layer) := []
  selectedLayer : Option Nat := none
  selectedClip : Option Nat := none
  deriving DecidableEq, Repr

/-- `saveSnapshot()`: no-op without a project; otherwise push a deep copy of
the layer list (snapshots are immutable values here, so the deep copy is
the value itself), clear the redo stack, and drop the oldest snapshot when
more than `MAX_HISTORY = 50` entries accumulate. -/

def saveSnapshot (s : EditorSt) : EditorSt :=
  match s.project with
  | none => s
  | some p =>
    let st := p.layers :: s.undoStack
    { s with undoStack := if st.length > 50 then st.dropLast else st, redoStack := [] }

/-- `undo()`: no-op without a project or with an empty undo stack; otherwise
push the current layers onto redo, restore the popped snapshot and clear
the selection. -/

def undo (s : EditorSt) : EditorSt :=
  match s.project, s.undoStack with
  | some p, top :: rest =>
    { s with project := some { p with layers := top }, undoStack := rest, redoStack := p.layers :: s.redoStack, selectedLayer := none, selectedClip := none }
  | _, _ => s

/-- `redo()`: the mirror of `undo()`. -/

def redo (s : EditorSt) : EditorSt :=
  match s.project, s.redoStack with
  | some p, top :: rest =>
    { s with project := some { p with layers := top }, redoStack := rest, undoStack := p.layers :: s.undoStack, selectedLayer := none, selectedClip := none }
  | _, _ => s

/-- An arbitrary mutation of the loaded project's layer list (covers
`updateClip`, `addClip`, `removeClip`, `addLayer`, …, all of which only
rewrite `project.layers`). -/

def mutateLayers (s : EditorSt) (f : List Layer → List Layer) : EditorSt :=
  match s.project with
  | none => s
  | some p => { s with project := some { p with layers := f p.layers } }

/-! ## Total duration (part_004 `getTotalDuration`, part_007 `exportVideo`) -/

/-- The inner loop of `getTotalDuration`: running maximum of `endTime` over
a clip list (`if (clip.endTime > max) max = clip.endTime`). -/

def clipMaxFold (m : ℚ) (cs : List Clip) : ℚ :=
  cs.foldl (fun acc c => if c.endTime > acc then c.endTime else acc) m

/-- `getTotalDuration`'s double loop: maximum `endTime` over all clips of
all layers (visibility is not consulted here), starting from `0`. -/

def maxEndTime (layers : List Layer) : ℚ :=
  layers.foldl (fun acc l => clipMaxFold acc l.clips) 0

/-- `EditorState.getTotalDuration()` = `max || (sourceVideoDuration || 60)`. -/

def getTotalDuration (p : Project) : ℚ :=
  jsOr (maxEndTime p.layers) (jsOr p.sourceVideoDuration 60)

/-- `exportVideo`'s clip collection: video clips of visible layers, sorted
by `startTime` ascending. -/

def allVideoClips (p : Project) : List Clip :=
  ((p.layers.filter (fun l => l.visible)).flatMap (fun l => l.clips.filter (fun c => c.type = ClipType.video))).insertionSort (fun a b => a.startTime ≤ b.startTime)

/-- `exportVideo`'s `totalDuration` (the duration of the black base canvas
of the composite stage): `allVideoClips.reduce((max, c) => Math.max(max, c.endTime), 0)`. -/

def canvasDuration (p : Project) : ℚ :=
  (allVideoClips p).foldl (fun m c => max m c.endTime) 0

/-- Counterexample project for C7: a visible video layer whose clip ends at
`t = 5` and a visible audio layer whose clip ends at `t = 10`. -/

def cexProj : Project :=
  { layers := [{ id := 1, clips := [{ id := 1, startTime := 0, endTime := 5 }] }, { id := 2, type := ClipType.audio, clips := [{ id := 3, type := ClipType.audio, startTime := 0, endTime := 10 }] }] }

/-! ## Preview renderer compositing order (player.js `renderFrame`, 231–247) -/

/-- `renderFrame`'s layer scan order:
`[...project.layers].sort((a, b) => a.order - b.order)` — ascending by
`order`, stable. -/

def sortedLayers (p : Project) : List Layer :=
  p.layers.insertionSort (fun a b => a.order ≤ b.order)

/-- The draw dispatch of `renderFrame`'s inner loop on one layer: skip a
clip when `clip.startTime > t || clip.endTime <= t`, then draw video clips
and subtitle clips (in array order); audio clips have no draw branch. -/

def drawnInLayer (l : Layer) (t : ℚ) : List (Nat × Nat) :=
  l.clips.filterMap (fun c =>
    if c.startTime > t ∨ c.endTime ≤ t then none
    else if c.type = ClipType.video then some (l.id, c.id)
    else if c.type = ClipType.subtitle then some (l.id, c.id)
    else none)

/-- The full draw list of `renderFrame` at playhead `t`: layers ascending by
`order` (so the highest order is drawn last, on top), invisible layers
skipped, clips within a layer in array order. -/

def drawnAt (p : Project) (t : ℚ) : List (Nat × Nat) :=
  (sortedLayers p).flatMap (fun l => if l.visible = false then [] else drawnInLayer l t)

instance : IsTotal Layer (fun a b => a.order ≤ b.order) :=
  ⟨fun a b => le_total a.order b.order⟩

instance : IsTrans Layer (fun a b => a.order ≤ b.order) :=
  ⟨fun _ _ _ hab hbc => le_trans hab hbc⟩

/-- The project of the spec's scenario 3: video clips `[0,5)` and `[5,10)`
on a layer with order 0, a subtitle `[2,8)` on a higher-order layer (listed
first in the layer array, so the sort actually reorders). -/

def scenario3 : Project :=
  { layers := [{ id := 2, type := ClipType.subtitle, order := 1, clips := [{ id := 21, type := ClipType.subtitle, startTime := 2, endTime := 8 }] }, { id := 1, order := 0, clips := [{ id := 11, startTime := 0, endTime := 5 }, { id := 12, startTime := 5, endTime := 10 }] }] }

/-! ## Export audio stage (part_007 `exportVideo`, phase 2) -/

/-- Audio filter-graph labels: `[avi]` for the audio of video clip `i`,
`[abgi]` for background-audio clip `i`. -/

inductive ALabel where
  | av (i : Nat)
  | abg (i : Nat)
  deriving DecidableEq, Repr

/-- Audio filter operations appearing in the export's audio chains. -/

inductive AOp where
  | atrim (dur : ℚ)
  | asetpts
  | volume (v : ℚ)
  | adelay (ms : ℤ)
  deriving DecidableEq, Repr

/-- One labelled audio filter chain. -/

structure AChain where
  label : ALabel
  ops : List AOp
  deriving DecidableEq, Repr

/-- Per-video-clip audio chains: scanning the temp clips in order (index
`i`), a clip probed with `hasAudio` contributes
`[i:a]adelay=Math.round(startTime*1000):all=1[avi]`; a clip without audio
contributes nothing.  Input: `(startTime, hasAudio)` per video clip. -/

def videoAudioChains : Nat → List (ℚ × Bool) → List AChain
  | _, [] => []
  | i, (s, true) :: rest =>
    ⟨ALabel.av i, [AOp.adelay (jsRound (s * 1000))]⟩ :: videoAudioChains (i + 1) rest
  | i, (_, false) :: rest => videoAudioChains (i + 1) rest

/-- One background-audio chain (part_007 296–311):
`atrim=duration=clipDur.toFixed(3), asetpts, volume=vol, adelay=delayMs` with
`vol = volume !== undefined ? volume : 0.8`, `startT = startTime || 0`,
`clipDur = max(0.1, (endTime || totalDuration) - startT)` and
`delayMs = Math.round(startT * 1000)`. -/

def bgChain (totalDuration : ℚ) (i : Nat) (c : Clip) : AChain :=
  let vol := c.volume.getD (4 / 5)
  let startT := jsOr c.startTime 0
  let clipDur := max (1 / 10) (jsOr c.endTime totalDuration - startT)
  ⟨ALabel.abg i, [AOp.atrim ((jsRound (clipDur * 1000) : ℚ) / 1000), AOp.asetpts, AOp.volume vol, AOp.adelay (jsRound (startT * 1000))]⟩

/-- All background-audio chains, indexed from `i`. -/

def bgChains (totalDuration : ℚ) : Nat → List Clip → List AChain
  | _, [] => []
  | i, c :: rest => bgChain totalDuration i c :: bgChains totalDuration (i + 1) rest

/-- The audio output decision (part_007 313–322 and 337–341): no labels →
the output is mapped with `-an` (no audio track); exactly one label →
passthrough without a mix; two or more → `amix` over all labels with
`duration=longest:normalize=0`. -/

inductive AudioOut where
  | noAudio
  | single (l : ALabel)
  | amix (inputs : List ALabel) (n : Nat) (normalize : Bool)
  deriving DecidableEq, Repr

/-- `allAudioLabels.length` dispatch of part_007. -/

def mixAudio (labels : List ALabel) : AudioOut :=
  match labels with
  | [] => AudioOut.noAudio
  | [l] => AudioOut.single l
  | ls => AudioOut.amix ls ls.length false

/-- The complete audio stage: video-clip chains (in temp-clip order), then
background chains; the mix decision runs over all produced labels. -/

def audioStage (videoClips : List (ℚ × Bool)) (bgClips : List Clip) (totalDuration : ℚ) :
    List AChain × AudioOut :=
  let chains := videoAudioChains 0 videoClips ++ bgChains totalDuration 0 bgClips
  (chains, mixAudio (chains.map AChain.label))

/-- The background-audio clip of the C5 counterexample: its timeline start
`1/3` s is not a whole number of milliseconds (such times arise directly
from the editor's `round(t*fps)/fps` frame snapping at `fps = 30`). -/

def cexAudioClip : Clip := { id := 5, type := ClipType.audio, startTime := 1 / 3, endTime := 2, volume := some (1 / 2) }

/-- The scenario-5 background clip: `volume = 0.5`, start at `t = 0`. -/

def sc5bg : Clip := { id := 7, type := ClipType.audio, startTime := 0, endTime := 0, volume := some (1 / 2) }

/-! ## Export control flow (part_007 `exportVideo`, phases and cleanup) -/

/-- The externally observable steps of `exportVideo`. -/

inductive ExEffect where
  | probe (i : Nat)
  | ensureDir
  | extract (i : Nat)
  | composite
  | removeDir
  deriving DecidableEq, Repr

/-- One run's environment: whether the `i`-th per-clip ffmpeg extraction
succeeds and whether the composite pass succeeds (`false` models the
command erroring, i.e. the awaited promise rejecting). -/

structure ExportEnv where
  extractOk : Nat → Bool
  compositeOk : Bool

/-- Phase 1's strictly sequential extraction loop: clip `i` is attempted;
a failure rejects and abandons the remaining clips. -/

def extractPhase (env : ExportEnv) : List Nat → List ExEffect × Bool
  | [] => ([], true)
  | i :: rest =>
    if env.extractOk i then
      let r := extractPhase env rest
      (ExEffect.extract i :: r.1, r.2)
    else ([ExEffect.extract i], false)

/-- `exportVideo`'s control flow as (effect trace, outcome): collect the
video clips of visible layers; with none, throw `'No video clips found'`
before any probe, extraction or temp-directory work.  Otherwise probe every
clip, `ensureDir` the temp directory, and run extraction and compositing
inside `try … finally await fs.remove(tempDir)` — the `finally` appends the
cleanup to every path, success or failure. -/

def exportVideoRun (env : ExportEnv) (p : Project) : List ExEffect × Except String Unit :=
  let vids := allVideoClips p
  if vids.isEmpty then ([], Except.error "No video clips found")
  else
    let probes := (List.range vids.length).map ExEffect.probe
    let ext := extractPhase env (List.range vids.length)
    let bodyEffects := if ext.2 then ext.1 ++ [ExEffect.composite] else ext.1
    let result : Except String Unit :=
      if ¬ ext.2 then Except.error "extraction failed"
      else if ¬ env.compositeOk then Except.error "composite failed"
      else Except.ok ()
    (probes ++ [ExEffect.ensureDir] ++ bodyEffects ++ [ExEffect.removeDir], result)

/-- A project whose only clip is an audio clip: no video anywhere. -/

def noVideoProj : Project :=
  { layers := [{ id := 1, type := ClipType.audio, clips := [{ id := 4, type := ClipType.audio, startTime := 0, endTime := 10 }] }] }

/-- An environment in which every ffmpeg invocation succeeds. -/

def envAllOk : ExportEnv := { extractOk := fun _ => true, compositeOk := true }

/-- An environment in which every ffmpeg invocation fails. -/

def envAllFail : ExportEnv := { extractOk := fun _ => false, compositeOk := false }

/-! ## Geometry resolver (part_007 `computeClipFilter` / `evenFloor`) -/

/-- `evenFloor`: `Math.max(2, n % 2 === 0 ? n : n - 1)`.  JS `%` truncates
toward zero; on the non-negative values this function receives
(`Math.max(1, …)`), `n % 2 = n - 2*⌊n/2⌋`. -/

def evenFloor (n : ℚ) : ℚ := max 2 (if n - 2 * ⌊n / 2⌋ = 0 then n else n - 1)

/-- The intermediate and emitted values of the `fit === 'cover'` branch of
`computeClipFilter` with known source dimensions: visible region `fw × fh`
(the scale target), scale factor `sf` with centring offsets, the
real-valued reverse-mapped source crop, the emitted (`Math.round`ed) crop,
and the overlay position. -/

structure CoverGeom where
  fw : ℚ
  fh : ℚ
  sf : ℚ
  offX : ℚ
  offY : ℚ
  srcCropX : ℚ
  srcCropY : ℚ
  srcCropW : ℚ
  srcCropH : ℚ
  cropW : ℤ
  cropH : ℤ
  cropX : ℤ
  cropY : ℤ
  overlayX : ℚ
  overlayY : ℚ
  deriving DecidableEq, Repr

/-- `computeClipFilter`'s cover branch (part_007 55–89), for a clip with
declared geometry `clip.x/y/width/height` (each defaulting through `||`),
source dimensions `srcW × srcH > 0` and output canvas `outW × outH`.
`srcAspect >= tgtAspect` selects scale-to-height (crop left/right),
otherwise scale-to-width (crop top/bottom). -/

def computeCoverGeom (clip : Clip) (srcW srcH outW outH : ℚ) : CoverGeom :=
  let scaleW := jsOr clip.width outW
  let scaleH := jsOr clip.height outH
  let cx := jsOr clip.x 0
  let cy := jsOr clip.y 0
  let fx := max 0 (-cx)
  let fy := max 0 (-cy)
  let fw := evenFloor (max 1 (min outW (cx + scaleW) - max 0 cx))
  let fh := evenFloor (max 1 (min outH (cy + scaleH) - max 0 cy))
  let sod := if scaleW / scaleH ≤ srcW / srcH then (scaleH / srcH, (srcW * (scaleH / srcH) - scaleW) / 2, (0 : ℚ)) else (scaleW / srcW, (0 : ℚ), (srcH * (scaleW / srcW) - scaleH) / 2)
  let sf := sod.1
  let offX := sod.2.1
  let offY := sod.2.2
  let srcCropX := max 0 ((fx + offX) / sf)
  let srcCropY := max 0 ((fy + offY) / sf)
  let srcCropW := max 1 (min (srcW - srcCropX) (fw / sf))
  let srcCropH := max 1 (min (srcH - srcCropY) (fh / sf))
  { fw, fh, sf, offX, offY, srcCropX, srcCropY, srcCropW, srcCropH,
    cropW := jsRound srcCropW, cropH := jsRound srcCropH, cropX := jsRound srcCropX, cropY := jsRound srcCropY,
    overlayX := max 0 cx, overlayY := max 0 cy }

/-- The C3 counterexample clip: a `1000×1000` cover clip at `x = -1` over a
`100×100` source on the default `1080×1920` canvas. -/

def cexCoverClip : Clip := { id := 9, x := -1, y := 0, width := 1000, height := 1000 }

/-- A C3 counterexample clip with *non-integer* declared geometry:
`x = 0.5`, reachable through the properties panel, whose position fields
are set with `parseFloat` (part_000). -/
def cexFracClip : Clip := { id := 10, x := 1 / 2, y := 0, width := 1080, height := 1920 }

/-- The spec's scenario-1 clip: full-canvas cover placement. -/

def sc1Clip : Clip := { id := 8, x := 0, y := 0, width := 1080, height := 1920 }

/-! ## Theorems -/

theorem jsOr_zero (v : ℚ) : jsOr v 0 = v := by
  simp only [jsOr]; split <;> simp_all

theorem jsRound_eq {q : ℚ} {n : ℤ} (h1 : (n : ℚ) ≤ q + 1 / 2) (h2 : q + 1 / 2 < n + 1) :
    jsRound q = n := by
  rw [jsRound]
  exact Int.floor_eq_iff.mpr ⟨h1, by linarith⟩

theorem IsInt.add {a b : ℚ} (ha : IsInt a) (hb : IsInt b) : IsInt (a + b) := by
  obtain ⟨m, rfl⟩ := ha; obtain ⟨n, rfl⟩ := hb
  exact ⟨m + n, by push_cast; ring⟩

theorem IsInt.sub {a b : ℚ} (ha : IsInt a) (hb : IsInt b) : IsInt (a - b) := by
  obtain ⟨m, rfl⟩ := ha; obtain ⟨n, rfl⟩ := hb
  exact ⟨m - n, by push_cast; ring⟩

theorem IsInt.neg {a : ℚ} (ha : IsInt a) : IsInt (-a) := by
  obtain ⟨m, rfl⟩ := ha; exact ⟨-m, by push_cast; ring⟩

theorem IsInt.min {a b : ℚ} (ha : IsInt a) (hb : IsInt b) : IsInt (min a b) := by
  obtain ⟨m, rfl⟩ := ha; obtain ⟨n, rfl⟩ := hb
  rcases le_total (m : ℚ) (n : ℚ) with h | h
  · exact ⟨m, by rw [min_eq_left h]⟩
  · exact ⟨n, by rw [min_eq_right h]⟩

theorem IsInt.max {a b : ℚ} (ha : IsInt a) (hb : IsInt b) : IsInt (max a b) := by
  obtain ⟨m, rfl⟩ := ha; obtain ⟨n, rfl⟩ := hb
  rcases le_total (m : ℚ) (n : ℚ) with h | h
  · exact ⟨n, by rw [max_eq_right h]⟩
  · exact ⟨m, by rw [max_eq_left h]⟩

theorem isInt_jsOr {a d : ℚ} (ha : IsInt a) (hd : IsInt d) : IsInt (jsOr a d) := by
  simp only [jsOr]; split <;> assumption

theorem find?_append_of_some {α : Type} (p : α → Bool) (l₁ l₂ : List α) (a : α)
    (h : l₁.find? p = some a) : (l₁ ++ l₂).find? p = some a := by
  rw [List.find?_append, h]; rfl

theorem find?_append_of_none {α : Type} (p : α → Bool) (l₁ l₂ : List α)
    (h : ∀ x ∈ l₁, ¬ p x = true) : (l₁ ++ l₂).find? p = l₂.find? p := by
  rw [List.find?_append, List.find?_eq_none.mpr h, Option.none_or]

theorem find?_replaceFirst {α : Type} (key : α → Nat) (k : Nat) (f : α → α)
    (l : List α) (a : α) (h : l.find? (fun x => key x = k) = some a)
    (hf : key (f a) = key a) :
    (replaceFirst key k f l).find? (fun x => key x = k) = some (f a) := by
  induction l with
  | nil => simp at h
  | cons b rest ih =>
    by_cases hb : key b = k
    · simp only [List.find?_cons, decide_eq_true hb] at h
      injection h with h; subst h
      simp only [replaceFirst, if_pos hb]
      simp only [List.find?_cons, decide_eq_true (hf.trans hb)]
    · simp only [List.find?_cons, decide_eq_false hb] at h
      simp only [replaceFirst, if_neg hb]
      simp only [List.find?_cons, decide_eq_false hb]
      exact ih h

theorem key_ne_of_replaceFirst {α : Type} (key : α → Nat) (k n : Nat) (f : α → α)
    (l : List α) (hf : ∀ a, key (f a) = key a) (h : ∀ a ∈ l, key a ≠ n) :
    ∀ x ∈ replaceFirst key k f l, key x ≠ n := by
  induction l with
  | nil => intro x hx; simp [replaceFirst] at hx
  | cons b rest ih =>
    intro x hx
    simp only [replaceFirst] at hx
    by_cases hb : key b = k
    · rw [if_pos hb] at hx
      rcases List.mem_cons.mp hx with rfl | hx
      · rw [hf]; exact h b (by simp)
      · exact h x (by simp [hx])
    · rw [if_neg hb] at hx
      rcases List.mem_cons.mp hx with rfl | hx
      · exact h x (by simp)
      · exact ih (fun a ha => h a (by simp [ha])) x hx

/-- C1: splitting a video clip at an interior time `t` yields two clips that
partition the original time range as `[startTime, t]` / `[t, endTime]`, with
source-trim ranges `[srcStart, splitSrc]` / `[splitSrc, srcEnd]` where
`splitSrc = srcStart + (srcEnd - srcStart) * (t - startTime)/(endTime - startTime)`
(the linear mapping invariant of §3). -/

theorem split_partitions (p : Project) (layerId clipId : Nat) (t : ℚ) (newId : Nat)
    (clip : Clip) (hc : getClip p layerId clipId = some clip)
    (h1 : clip.startTime < t) (h2 : t < clip.endTime)
    (hfil : clip.isFiltered = false)
    (hfresh : ∀ l ∈ p.layers, ∀ c ∈ l.clips, c.id ≠ newId) :
    ∃ c₁ c₂,
      getClip (splitClipOp p layerId clipId t newId) layerId clipId = some c₁ ∧
      getClip (splitClipOp p layerId clipId t newId) layerId newId = some c₂ ∧
      c₁.startTime = clip.startTime ∧ c₁.endTime = t ∧
      c₂.startTime = t ∧ c₂.endTime = clip.endTime ∧
      c₁.srcStart = clip.srcStart ∧
      c₁.srcEnd = clip.srcStart + (clip.srcEnd - clip.srcStart) *
        ((t - clip.startTime) / (clip.endTime - clip.startTime)) ∧
      c₂.srcStart = c₁.srcEnd ∧ c₂.srcEnd = clip.srcEnd := by
  obtain ⟨L, hL, hclip⟩ := Option.bind_eq_some.mp hc
  have hLmem : L ∈ p.layers := List.mem_of_find?_eq_some hL
  have hguard : ¬ (t ≤ clip.startTime ∨ clip.endTime ≤ t) := by
    push_neg
    exact ⟨h1, h2⟩
  simp only [splitClipOp, hc, if_neg hguard, hfil, Bool.false_eq_true, if_neg, if_false]
  set splitSrc := jsOr clip.srcStart 0 + (jsOr clip.srcEnd 0 - jsOr clip.srcStart 0) * ((t - clip.startTime) / (clip.endTime - clip.startTime)) with hsplit
  refine ⟨{ clip with endTime := t, srcEnd := splitSrc }, { clip with id := newId, startTime := t, endTime := clip.endTime, srcStart := splitSrc, srcEnd := clip.srcEnd }, ?_, ?_, rfl, rfl, rfl, rfl, rfl, ?_, ?_, rfl⟩
  · -- lookup of the (mutated) original clip
    simp only [getClip, getLayer, addClipP, updateClipP]
    rw [find?_replaceFirst _ _ _ _ _ (find?_replaceFirst _ _ _ _ _ hL rfl) rfl]
    simp only [Option.some_bind]
    exact find?_append_of_some _ _ _ _ (find?_replaceFirst _ _ _ _ _ hclip rfl)
  · -- lookup of the appended second half
    simp only [getClip, getLayer, addClipP, updateClipP]
    rw [find?_replaceFirst _ _ _ _ _ (find?_replaceFirst _ _ _ _ _ hL rfl) rfl]
    simp only [Option.some_bind]
    have hnotin : ∀ x ∈ replaceFirst (Clip.id ·) clipId (fun c => { c with endTime := t, srcEnd := splitSrc }) L.clips, ¬ (fun c : Clip => decide (c.id = newId)) x = true := by
      intro x hx
      have := key_ne_of_replaceFirst (Clip.id ·) clipId newId (fun c => { c with endTime := t, srcEnd := splitSrc }) L.clips (fun _ => rfl) (hfresh L hLmem) x hx
      simpa using this
    rw [find?_append_of_none _ _ _ hnotin]
    simp [List.find?_cons, hfil]
  · simp [hsplit, jsOr_zero]
  · simp

/-- Concrete check of `split_partitions`: the spec's scenario 2 — splitting
`{0,10,srcStart 0,srcEnd 10}` at `t = 4` gives `{0,4,src 0..4}` and
`{4,10,src 4..10}`. -/

theorem split_partitions_witness :
    ∃ c₁ c₂,
      getClip (splitClipOp witProj 1 2 4 99) 1 2 = some c₁ ∧
      getClip (splitClipOp witProj 1 2 4 99) 1 99 = some c₂ ∧
      c₁.startTime = 0 ∧ c₁.endTime = 4 ∧ c₂.startTime = 4 ∧ c₂.endTime = 10 ∧
      c₁.srcStart = 0 ∧ c₁.srcEnd = 0 + (10 - 0) * ((4 - 0) / (10 - 0)) ∧
      c₂.srcStart = c₁.srcEnd ∧ c₂.srcEnd = 10 := by
  exact split_partitions witProj 1 2 4 99 witClip rfl (by norm_num [witClip]) (by norm_num [witClip]) rfl (by decide)

/-- C10: invoking the split operation with a missing clip, with `t` outside
the open interval `(startTime, endTime)`, or on an `isFiltered` clip leaves
the project completely unchanged. -/

theorem split_guard_noop (p : Project) (layerId clipId : Nat) (t : ℚ) (newId : Nat)
    (h : getClip p layerId clipId = none ∨
      ∃ clip, getClip p layerId clipId = some clip ∧
        (t ≤ clip.startTime ∨ clip.endTime ≤ t ∨ clip.isFiltered = true)) :
    splitClipOp p layerId clipId t newId = p := by
  rcases h with h | ⟨clip, hc, hg⟩
  · simp [splitClipOp, h]
  · simp only [splitClipOp, hc]
    by_cases h1 : t ≤ clip.startTime ∨ clip.endTime ≤ t
    · rw [if_pos h1]
    · rcases hg with hg | hg | hg
      · exact absurd (Or.inl hg) h1
      · exact absurd (Or.inr hg) h1
      · rw [if_neg h1, if_pos hg]

/-- Concrete check of `split_guard_noop`: splitting past the clip's end
(`t = 20`) changes nothing, and splitting an `isFiltered` clip at an
interior `t = 5` changes nothing. -/

theorem split_guard_noop_witness :
    splitClipOp witProj 1 2 20 99 = witProj ∧ splitClipOp witProjF 1 2 5 99 = witProjF := by
  constructor
  · exact split_guard_noop witProj 1 2 20 99 (Or.inr ⟨witClip, rfl, Or.inr (Or.inl (by norm_num [witClip]))⟩)
  · exact split_guard_noop witProjF 1 2 5 99 (Or.inr ⟨witClipF, rfl, Or.inr (Or.inr rfl)⟩)

/-- C2: for every loaded project and every mutation of the layer list,
`saveSnapshot(); mutate(); undo()` restores the pre-mutation layer list
exactly, and a following `redo()` restores the post-mutation list. -/

theorem snapshot_mutate_undo_redo (s : EditorSt) (p : Project)
    (f : List Layer → List Layer) (hp : s.project = some p) :
    (undo (mutateLayers (saveSnapshot s) f)).project.map Project.layers = some p.layers ∧
    (redo (undo (mutateLayers (saveSnapshot s) f))).project.map Project.layers = some (f p.layers) := by
  have hstack : ∃ rest, (saveSnapshot s).undoStack = p.layers :: rest ∧ (saveSnapshot s).project = some p ∧ (saveSnapshot s).redoStack = [] := by
    simp only [saveSnapshot, hp]
    by_cases hl : (p.layers :: s.undoStack).length > 50
    · rw [if_pos hl]
      match s.undoStack, hl with
      | b :: rest, _ => exact ⟨(b :: rest).dropLast, by simp, by trivial, by trivial⟩
      | [], hl => simp at hl
    · rw [if_neg hl]
      exact ⟨s.undoStack, by trivial, by trivial, by trivial⟩
  obtain ⟨rest, hstk, hprj, hred⟩ := hstack
  have hm1 : (mutateLayers (saveSnapshot s) f).project = some { p with layers := f p.layers } := by
    simp only [mutateLayers, hprj]
  have hm2 : (mutateLayers (saveSnapshot s) f).undoStack = p.layers :: rest := by
    simp only [mutateLayers, hprj, hstk]
  have hm3 : (mutateLayers (saveSnapshot s) f).redoStack = [] := by
    simp only [mutateLayers, hprj, hred]
  have hu : undo (mutateLayers (saveSnapshot s) f) =
      { mutateLayers (saveSnapshot s) f with project := some { p with layers := p.layers }, undoStack := rest, redoStack := [f p.layers], selectedLayer := none, selectedClip := none } := by
    simp only [undo, hm1, hm2, hm3]
  constructor
  · rw [hu]; rfl
  · rw [hu]; simp only [redo]; rfl

/-- Concrete check of `snapshot_mutate_undo_redo`: deleting every layer of
the witness project and undoing restores it; redoing deletes again. -/

theorem snapshot_mutate_undo_redo_witness :
    (undo (mutateLayers (saveSnapshot { project := some witProj }) (fun _ => []))).project.map Project.layers = some witProj.layers ∧
    (redo (undo (mutateLayers (saveSnapshot { project := some witProj }) (fun _ => [])))).project.map Project.layers = some [] := by
  exact snapshot_mutate_undo_redo { project := some witProj } witProj (fun _ => []) rfl

theorem clipMaxFold_eq_max (cs : List Clip) (m : ℚ) :
    clipMaxFold m cs = cs.foldl (fun acc c => max acc c.endTime) m := by
  induction cs generalizing m with
  | nil => rfl
  | cons c rest ih =>
    simp only [clipMaxFold, List.foldl_cons] at ih ⊢
    rw [ih]
    congr 1
    rcases lt_or_le m c.endTime with h | h
    · rw [if_pos h, max_eq_right h.le]
    · rw [if_neg (not_lt.mpr h), max_eq_left h]

theorem le_clipMaxFold (cs : List Clip) (m : ℚ) : m ≤ clipMaxFold m cs := by
  induction cs generalizing m with
  | nil => exact le_refl m
  | cons c rest ih =>
    have hstep : clipMaxFold m (c :: rest) = clipMaxFold (if c.endTime > m then c.endTime else m) rest := rfl
    rw [hstep]
    refine le_trans ?_ (ih _)
    split
    · linarith
    · exact le_refl m

theorem clipMaxFold_le_of_mem (cs : List Clip) :
    ∀ (m : ℚ) (c : Clip), c ∈ cs → c.endTime ≤ clipMaxFold m cs := by
  induction cs with
  | nil => intro m c h; simp at h
  | cons b rest ih =>
    intro m c h
    have hstep : clipMaxFold m (b :: rest) = clipMaxFold (if b.endTime > m then b.endTime else m) rest := rfl
    rw [hstep]
    rcases List.mem_cons.mp h with rfl | h
    · refine le_trans ?_ (le_clipMaxFold rest _)
      split
      · exact le_refl _
      · linarith [not_lt.mp (by assumption : ¬ c.endTime > m)]
    · exact ih _ c h

theorem clipMaxFold_attained (cs : List Clip) :
    ∀ m : ℚ, clipMaxFold m cs = m ∨ ∃ c ∈ cs, clipMaxFold m cs = c.endTime := by
  induction cs with
  | nil => intro m; exact Or.inl rfl
  | cons b rest ih =>
    intro m
    have hstep : clipMaxFold m (b :: rest) = clipMaxFold (if b.endTime > m then b.endTime else m) rest := rfl
    rcases ih (if b.endTime > m then b.endTime else m) with h | ⟨d, hd, h⟩
    · by_cases hb : b.endTime > m
      · exact Or.inr ⟨b, by simp, by rw [hstep, h, if_pos hb]⟩
      · exact Or.inl (by rw [hstep, h, if_neg hb])
    · exact Or.inr ⟨d, by simp [hd], by rw [hstep, h]⟩

theorem le_maxEndTimeAux (layers : List Layer) :
    ∀ m : ℚ, m ≤ layers.foldl (fun acc l => clipMaxFold acc l.clips) m := by
  induction layers with
  | nil => intro m; exact le_refl m
  | cons l rest ih =>
    intro m
    exact le_trans (le_clipMaxFold l.clips m) (ih _)

theorem maxEndTime_le_of_mem (layers : List Layer) :
    ∀ (m : ℚ) (l : Layer) (c : Clip), l ∈ layers → c ∈ l.clips →
      c.endTime ≤ layers.foldl (fun acc l => clipMaxFold acc l.clips) m := by
  induction layers with
  | nil => intro m l c hl _; simp at hl
  | cons b rest ih =>
    intro m l c hl hc
    rcases List.mem_cons.mp hl with rfl | hl
    · exact le_trans (clipMaxFold_le_of_mem l.clips m c hc) (le_maxEndTimeAux rest _)
    · exact ih _ l c hl hc

theorem maxEndTime_attained (layers : List Layer) :
    ∀ m : ℚ, layers.foldl (fun acc l => clipMaxFold acc l.clips) m = m ∨
      ∃ l ∈ layers, ∃ c ∈ l.clips,
        layers.foldl (fun acc l => clipMaxFold acc l.clips) m = c.endTime := by
  induction layers with
  | nil => intro m; exact Or.inl rfl
  | cons b rest ih =>
    intro m
    rcases ih (clipMaxFold m b.clips) with h | ⟨l, hl, c, hc, h⟩
    · rcases clipMaxFold_attained b.clips m with h2 | ⟨c, hc, h2⟩
      · exact Or.inl (by simpa [h2] using h)
      · exact Or.inr ⟨b, by simp, c, hc, by simpa [h2] using h⟩
    · exact Or.inr ⟨l, by simp [hl], c, hc, by simpa using h⟩

/-- C7 refuted as stated: the editor's `getTotalDuration()` is `10` (the
maximum `endTime` over all clips of all layers), but the black base canvas
of the compiled composite stage lasts only `5` seconds — `exportVideo`
computes its `totalDuration` over the *video* clips of visible layers only,
so the two are not both "the maximum endTime across all clips in all
layers". -/

theorem totalDuration_counterexample :
    getTotalDuration cexProj = 10 ∧ maxEndTime cexProj.layers = 10 ∧
    canvasDuration cexProj = 5 ∧ canvasDuration cexProj ≠ maxEndTime cexProj.layers := by
  refine ⟨?_, ?_, ?_, ?_⟩ <;> decide

/-- C7 (amended): the editor's `getTotalDuration()` equals the maximum
`endTime` over all clips of all layers when that maximum is non-zero, and
falls back to `sourceVideoDuration || 60` when it is zero (in particular
with zero clips); the composite stage's base-canvas duration equals the
maximum `endTime` over the *video clips of visible layers* only. -/

theorem totalDuration_spec (p : Project) :
    (∀ l ∈ p.layers, ∀ c ∈ l.clips, c.endTime ≤ maxEndTime p.layers) ∧
    (maxEndTime p.layers = 0 ∨ ∃ l ∈ p.layers, ∃ c ∈ l.clips, maxEndTime p.layers = c.endTime) ∧
    (maxEndTime p.layers ≠ 0 → getTotalDuration p = maxEndTime p.layers) ∧
    (maxEndTime p.layers = 0 → getTotalDuration p = jsOr p.sourceVideoDuration 60) ∧
    (∀ c ∈ allVideoClips p, c.endTime ≤ canvasDuration p) ∧
    (canvasDuration p = 0 ∨ ∃ c ∈ allVideoClips p, canvasDuration p = c.endTime) ∧
    (allVideoClips p).Perm ((p.layers.filter (fun l => l.visible)).flatMap (fun l => l.clips.filter (fun c => c.type = ClipType.video))) := by
  have hcanvas : canvasDuration p = clipMaxFold 0 (allVideoClips p) :=
    (clipMaxFold_eq_max (allVideoClips p) 0).symm
  refine ⟨?_, ?_, ?_, ?_, ?_, ?_, ?_⟩
  · intro l hl c hc
    exact maxEndTime_le_of_mem p.layers 0 l c hl hc
  · rcases maxEndTime_attained p.layers 0 with h | ⟨l, hl, c, hc, h⟩
    · exact Or.inl h
    · exact Or.inr ⟨l, hl, c, hc, h⟩
  · intro h
    simp only [getTotalDuration, jsOr, if_neg h]
  · intro h
    simp [getTotalDuration, jsOr, h]
  · intro c hc
    rw [hcanvas]
    exact clipMaxFold_le_of_mem _ 0 c hc
  · rw [hcanvas]
    rcases clipMaxFold_attained (allVideoClips p) 0 with h | ⟨c, hc, h⟩
    · exact Or.inl h
    · exact Or.inr ⟨c, hc, h⟩
  · exact List.perm_insertionSort _ _

/-- Concrete check of `totalDuration_spec` on the counterexample project. -/

theorem totalDuration_spec_witness :
    (maxEndTime cexProj.layers ≠ 0 → getTotalDuration cexProj = maxEndTime cexProj.layers) ∧
    (∀ c ∈ allVideoClips cexProj, c.endTime ≤ canvasDuration cexProj) :=
  ⟨(totalDuration_spec cexProj).2.2.1, (totalDuration_spec cexProj).2.2.2.2.1⟩

/-- C9: the preview renderer scans a permutation of the layers sorted
ascending by `order`; within a layer clips are drawn in array order, a
(video or subtitle) clip being drawn exactly when `t` lies in the half-open
interval `[startTime, endTime)`; in scenario 3 at `t = 6` it draws the
second video clip and then the subtitle on top of it. -/

theorem renderFrame_draw_order (p : Project) (t : ℚ) :
    List.Sorted (fun a b : Layer => a.order ≤ b.order) (sortedLayers p) ∧
    (sortedLayers p).Perm p.layers ∧
    (∀ l : Layer, drawnInLayer l t =
      (l.clips.filter (fun c => c.startTime ≤ t ∧ t < c.endTime ∧ (c.type = ClipType.video ∨ c.type = ClipType.subtitle))).map (fun c => (l.id, c.id))) ∧
    drawnAt scenario3 6 = [(1, 12), (2, 21)] := by
  refine ⟨List.sorted_insertionSort _ _, List.perm_insertionSort _ _, ?_, by decide⟩
  intro l
  simp only [drawnInLayer]
  induction l.clips with
  | nil => rfl
  | cons c rest ih =>
    rw [List.filterMap_cons, List.filter_cons]
    by_cases hin : c.startTime > t ∨ c.endTime ≤ t
    · have hnot : ¬ (c.startTime ≤ t ∧ t < c.endTime ∧ (c.type = ClipType.video ∨ c.type = ClipType.subtitle)) := by
        rcases hin with h | h
        · exact fun hh => absurd hh.1 (not_le.mpr h)
        · exact fun hh => absurd hh.2.1 (not_lt.mpr h)
      simp [hin, hnot, ih]
    · have hs1 : c.startTime ≤ t := not_lt.mp (not_or.mp hin).1
      have hs2 : t < c.endTime := not_le.mp (not_or.mp hin).2
      rcases htype : c.type with hv | hsb | ha <;> simp [hin, htype, hs1, hs2, ih]

theorem mem_videoAudioChains (vc : List (ℚ × Bool)) :
    ∀ (k i : Nat), ALabel.av i ∈ (videoAudioChains k vc).map AChain.label ↔
      ∃ j s, i = k + j ∧ vc[j]? = some (s, true) := by
  induction vc with
  | nil =>
    intro k i
    simp [videoAudioChains]
  | cons p rest ih =>
    intro k i
    obtain ⟨s, h⟩ := p
    cases h
    case false =>
      simp only [videoAudioChains, ih (k + 1) i]
      constructor
      · rintro ⟨j, s', rfl, hj⟩
        exact ⟨j + 1, s', by omega, by simpa using hj⟩
      · rintro ⟨j, s', rfl, hj⟩
        cases j with
        | zero => simp at hj
        | succ j => exact ⟨j, s', by omega, by simpa using hj⟩
    case true =>
      simp only [videoAudioChains, List.map_cons, List.mem_cons, ALabel.av.injEq, ih (k + 1) i]
      constructor
      · rintro (rfl | ⟨j, s', rfl, hj⟩)
        · exact ⟨0, s, by simp⟩
        · exact ⟨j + 1, s', by omega, by simpa using hj⟩
      · rintro ⟨j, s', rfl, hj⟩
        cases j with
        | zero =>
          simp only [List.getElem?_cons_zero, Option.some.injEq, Prod.mk.injEq] at hj
          exact Or.inl (by omega)
        | succ j =>
          exact Or.inr ⟨j, s', by omega, by simpa using hj⟩

theorem av_notMem_bgChains (bg : List Clip) :
    ∀ (td : ℚ) (k i : Nat), ALabel.av i ∉ (bgChains td k bg).map AChain.label := by
  induction bg with
  | nil => intro td k i h; simp [bgChains] at h
  | cons c rest ih =>
    intro td k i h
    simp only [bgChains, List.map_cons, List.mem_cons] at h
    rcases h with h | h
    · exact absurd h (by simp [bgChain])
    · exact ih td (k + 1) i h

/-- C4: in the compiled audio stage, the per-video-clip audio labels `[avi]`
fed to the mix are exactly those of the video clips probed with
`hasAudio = true`; clips without an audio stream are never wired in. -/

theorem audio_mix_inputs_exact (videoClips : List (ℚ × Bool)) (bgClips : List Clip)
    (td : ℚ) (i : Nat) :
    ALabel.av i ∈ ((audioStage videoClips bgClips td).1.map AChain.label) ↔
      ∃ s, videoClips[i]? = some (s, true) := by
  simp only [audioStage, List.map_append, List.mem_append]
  constructor
  · rintro (h | h)
    · obtain ⟨j, s, rfl, hj⟩ := (mem_videoAudioChains videoClips 0 _).mp h
      exact ⟨s, by simpa using hj⟩
    · exact absurd h (av_notMem_bgChains bgClips td 0 i)
  · rintro ⟨s, hs⟩
    exact Or.inl ((mem_videoAudioChains videoClips 0 i).mpr ⟨i, s, by omega, hs⟩)

theorem bgChains_mem_shape (bg : List Clip) :
    ∀ (td : ℚ) (k : Nat) (ch : AChain), ch ∈ bgChains td k bg →
      ∃ j c, bg[j]? = some c ∧ ch = bgChain td (k + j) c := by
  induction bg with
  | nil => intro td k ch h; simp [bgChains] at h
  | cons c rest ih =>
    intro td k ch h
    simp only [bgChains, List.mem_cons] at h
    rcases h with rfl | h
    · exact ⟨0, c, by simp⟩
    · obtain ⟨j, c', hj, rfl⟩ := ih td (k + 1) ch h
      exact ⟨j + 1, c', by simpa using hj, by rw [Nat.add_assoc, Nat.add_comm 1 j]⟩

theorem videoAudioChains_mem_shape (vc : List (ℚ × Bool)) :
    ∀ (k : Nat) (ch : AChain), ch ∈ videoAudioChains k vc →
      ∃ j s, vc[j]? = some (s, true) ∧
        ch = ⟨ALabel.av (k + j), [AOp.adelay (jsRound (s * 1000))]⟩ := by
  induction vc with
  | nil => intro k ch h; simp [videoAudioChains] at h
  | cons p rest ih =>
    intro k ch h
    obtain ⟨s, b⟩ := p
    cases b
    case false =>
      obtain ⟨j, s', hj, rfl⟩ := ih (k + 1) ch (by simpa [videoAudioChains] using h)
      exact ⟨j + 1, s', by simpa using hj, by rw [Nat.add_assoc, Nat.add_comm 1 j]⟩
    case true =>
      simp only [videoAudioChains, List.mem_cons] at h
      rcases h with rfl | h
      · exact ⟨0, s, by simp⟩
      · obtain ⟨j, s', hj, rfl⟩ := ih (k + 1) ch h
        exact ⟨j + 1, s', by simpa using hj, by rw [Nat.add_assoc, Nat.add_comm 1 j]⟩

/-- C5 refuted as stated: the delay the compiled audio stage applies is
`Math.round(startTime * 1000)` milliseconds; for `startTime = 1/3` s that is
`333 ms`, and `333/1000 ≠ 1/3` — the delay equals the clip's timeline start
only after rounding to a whole millisecond. -/

theorem audio_delay_counterexample :
    (bgChain 10 0 cexAudioClip).ops = [AOp.atrim (1667 / 1000), AOp.asetpts, AOp.volume (1 / 2), AOp.adelay 333] ∧
    ((333 : ℚ) / 1000 ≠ cexAudioClip.startTime) := by
  have h1 : jsOr cexAudioClip.endTime 10 = 2 := by norm_num [jsOr, cexAudioClip]
  have h2 : jsOr cexAudioClip.startTime 0 = 1 / 3 := by norm_num [jsOr, cexAudioClip]
  have h3 : max (1 / 10 : ℚ) (2 - 1 / 3) = 5 / 3 := by rw [max_eq_right] <;> norm_num
  have h4 : jsRound ((5 / 3 : ℚ) * 1000) = 1667 := jsRound_eq (by norm_num) (by norm_num)
  have h5 : jsRound (cexAudioClip.startTime * 1000) = 333 := by
    rw [show cexAudioClip.startTime = 1 / 3 from rfl]
    exact jsRound_eq (by norm_num) (by norm_num)
  have h6 : jsRound ((1 / 3 : ℚ) * 1000) = 333 := jsRound_eq (by norm_num) (by norm_num)
  constructor
  · simp only [bgChain, h1, h2, h3]
    simp only [h4, h6]
    norm_num [cexAudioClip]
  · norm_num [cexAudioClip]

/-- C5 (amended): every background-audio chain applies `atrim`, `asetpts`,
a volume scale by the clip's `volume` (default `0.8`) and a delay of the
clip's timeline start rounded to the nearest millisecond; every video-clip
audio chain (present exactly for `hasAudio` clips) applies a delay of the
clip's start rounded to the nearest millisecond; with no audio label the
output carries no audio track, with exactly one it is passed through
without a mix, and with two or more all labels feed one `amix` with
`normalize=0`. -/

theorem audio_stage_spec (videoClips : List (ℚ × Bool)) (bgClips : List Clip) (td : ℚ) :
    (∀ ch ∈ (audioStage videoClips bgClips td).1, ∀ i, ch.label = ALabel.abg i →
      ∃ c, bgClips[i]? = some c ∧ ch.ops = [AOp.atrim ((jsRound ((max (1 / 10) (jsOr c.endTime td - jsOr c.startTime 0)) * 1000) : ℚ) / 1000), AOp.asetpts, AOp.volume (c.volume.getD (4 / 5)), AOp.adelay (jsRound (jsOr c.startTime 0 * 1000))]) ∧
    (∀ ch ∈ (audioStage videoClips bgClips td).1, ∀ i, ch.label = ALabel.av i →
      ∃ s, videoClips[i]? = some (s, true) ∧ ch.ops = [AOp.adelay (jsRound (s * 1000))]) ∧
    ((audioStage videoClips bgClips td).1.map AChain.label = [] →
      (audioStage videoClips bgClips td).2 = AudioOut.noAudio) ∧
    (∀ l, (audioStage videoClips bgClips td).1.map AChain.label = [l] →
      (audioStage videoClips bgClips td).2 = AudioOut.single l) ∧
    (2 ≤ ((audioStage videoClips bgClips td).1.map AChain.label).length →
      (audioStage videoClips bgClips td).2 = AudioOut.amix ((audioStage videoClips bgClips td).1.map AChain.label) ((audioStage videoClips bgClips td).1.map AChain.label).length false) := by
  refine ⟨?_, ?_, ?_, ?_, ?_⟩
  · intro ch hch i hlab
    simp only [audioStage, List.mem_append] at hch
    rcases hch with hch | hch
    · obtain ⟨j, s, _, rfl⟩ := videoAudioChains_mem_shape videoClips 0 ch hch
      simp at hlab
    · obtain ⟨j, c, hj, rfl⟩ := bgChains_mem_shape bgClips td 0 ch hch
      have hij : i = j := by simpa [bgChain] using hlab.symm
      subst hij
      exact ⟨c, by simpa using hj, by simp [bgChain]⟩
  · intro ch hch i hlab
    simp only [audioStage, List.mem_append] at hch
    rcases hch with hch | hch
    · obtain ⟨j, s, hj, rfl⟩ := videoAudioChains_mem_shape videoClips 0 ch hch
      have hij : i = j := by simpa using hlab.symm
      subst hij
      exact ⟨s, by simpa using hj, rfl⟩
    · obtain ⟨j, c, _, rfl⟩ := bgChains_mem_shape bgClips td 0 ch hch
      simp [bgChain] at hlab
  · intro h
    simp only [audioStage] at h ⊢
    rw [h]
    rfl
  · intro l h
    simp only [audioStage] at h ⊢
    rw [h]
    rfl
  · intro h
    simp only [audioStage] at h ⊢
    rcases hl : List.map AChain.label (videoAudioChains 0 videoClips ++ bgChains td 0 bgClips) with - | ⟨a, tail⟩
    · have hlen := congrArg List.length hl
      rw [List.length_map, List.length_append] at hlen
      simp only [List.length_nil] at hlen
      simp at h
      omega
    · cases tail with
      | nil =>
        have hlen := congrArg List.length hl
        rw [List.length_map, List.length_append] at hlen
        simp only [List.length_cons, List.length_nil] at hlen
        simp at h
        omega
      | cons b rest => rfl

/-- Concrete check of `audio_stage_spec` on the spec's scenario 5: two
video clips with audio plus one background clip with `volume = 0.5` feed a
three-input `amix` with `normalize=0`, and the background chain carries the
volume scale. -/

theorem audio_stage_spec_witness :
    (audioStage [(0, true), (5, true)] [sc5bg] 10).2 = AudioOut.amix [ALabel.av 0, ALabel.av 1, ALabel.abg 0] 3 false ∧
    ∃ c, [sc5bg][0]? = some c ∧ (bgChain 10 0 sc5bg).ops = [AOp.atrim 10, AOp.asetpts, AOp.volume (1 / 2), AOp.adelay 0] := by
  constructor
  · have h := (audio_stage_spec [(0, true), (5, true)] [sc5bg] 10).2.2.2.2
    have hl : ((audioStage [(0, true), (5, true)] [sc5bg] 10).1.map AChain.label) = [ALabel.av 0, ALabel.av 1, ALabel.abg 0] := by decide
    rw [hl] at h
    simpa using h (by norm_num)
  · obtain ⟨c, hc, hops⟩ := (audio_stage_spec [(0, true), (5, true)] [sc5bg] 10).1 (bgChain 10 0 sc5bg) (by simp [audioStage, videoAudioChains, bgChains]) 0 rfl
    have hceq : sc5bg = c := by simpa using hc
    subst hceq
    refine ⟨sc5bg, by simp, ?_⟩
    rw [hops]
    have h1 : jsOr sc5bg.endTime 10 = 10 := by norm_num [jsOr, sc5bg]
    have h2 : jsOr sc5bg.startTime 0 = 0 := by norm_num [jsOr, sc5bg]
    have h3 : max (1 / 10 : ℚ) (10 - 0) = 10 := by rw [max_eq_right] <;> norm_num
    have h4 : jsRound ((10 : ℚ) * 1000) = 10000 := jsRound_eq (by norm_num) (by norm_num)
    have h5 : jsRound ((0 : ℚ) * 1000) = 0 := jsRound_eq (by norm_num) (by norm_num)
    simp only [h1, h2, h3, h4, h5]
    norm_num [sc5bg]

/-- C6: a project with zero video clips across its visible layers makes the
export fail immediately with `'No video clips found'`, with an empty effect
trace — no probe, no extraction and no temp-directory work. -/

theorem export_no_video_clips (env : ExportEnv) (p : Project)
    (h : allVideoClips p = []) :
    exportVideoRun env p = ([], Except.error "No video clips found") := by
  simp [exportVideoRun, h]

/-- Concrete check of `export_no_video_clips` on an audio-only project. -/

theorem export_no_video_clips_witness :
    exportVideoRun envAllOk noVideoProj = ([], Except.error "No video clips found") :=
  export_no_video_clips envAllOk noVideoProj (by decide)

theorem removeDir_notMem_extractPhase (env : ExportEnv) (l : List Nat) :
    ExEffect.removeDir ∉ (extractPhase env l).1 := by
  induction l with
  | nil => simp [extractPhase]
  | cons i rest ih =>
    by_cases hi : env.extractOk i
    · simpa [extractPhase, hi] using ih
    · simp [extractPhase, hi]

/-- C8: whenever the export gets past the video-clip check (and so creates
the temp directory), its effect trace ends with the temp-directory removal
— for every environment, i.e. on success and on every extraction or
composite failure — and the removal happens exactly once, after `ensureDir`. -/

theorem export_cleanup (env : ExportEnv) (p : Project) (h : allVideoClips p ≠ []) :
    ∃ pre, (exportVideoRun env p).1 = pre ++ [ExEffect.removeDir] ∧
      ExEffect.ensureDir ∈ pre ∧ ExEffect.removeDir ∉ pre := by
  have hne : (allVideoClips p).isEmpty = false := by
    simpa [List.isEmpty_iff] using h
  refine ⟨(List.range (allVideoClips p).length).map ExEffect.probe ++ [ExEffect.ensureDir] ++
    (if (extractPhase env (List.range (allVideoClips p).length)).2 then
      (extractPhase env (List.range (allVideoClips p).length)).1 ++ [ExEffect.composite]
    else (extractPhase env (List.range (allVideoClips p).length)).1), ?_, ?_, ?_⟩
  · simp only [exportVideoRun, hne, Bool.false_eq_true, if_false, List.append_assoc]
  · simp
  · intro hmem
    simp only [List.mem_append, List.mem_map, List.mem_singleton] at hmem
    rcases hmem with (⟨i, _, hi⟩ | hd) | hbody
    · exact absurd hi (by simp)
    · exact absurd hd (by simp)
    · by_cases hext : (extractPhase env (List.range (allVideoClips p).length)).2
      · rw [if_pos hext] at hbody
        rcases List.mem_append.mp hbody with hm | hm
        · exact removeDir_notMem_extractPhase env _ hm
        · simp at hm
      · rw [if_neg hext] at hbody
        exact removeDir_notMem_extractPhase env _ hbody

/-- Concrete check of `export_cleanup` on the witness project, both in a
fully succeeding environment and in one where every invocation fails. -/

theorem export_cleanup_witness :
    (∃ pre, (exportVideoRun envAllOk witProj).1 = pre ++ [ExEffect.removeDir] ∧
      ExEffect.ensureDir ∈ pre ∧ ExEffect.removeDir ∉ pre) ∧
    (∃ pre, (exportVideoRun envAllFail witProj).1 = pre ++ [ExEffect.removeDir] ∧
      ExEffect.ensureDir ∈ pre ∧ ExEffect.removeDir ∉ pre) :=
  ⟨export_cleanup envAllOk witProj (by decide), export_cleanup envAllFail witProj (by decide)⟩

theorem evenFloor_int {q : ℚ} (hq : IsInt q) :
    ∃ k : ℤ, evenFloor q = 2 * k ∧ 2 ≤ evenFloor q := by
  obtain ⟨n, rfl⟩ := hq
  have h2 : (2 : ℚ) ≤ evenFloor n := le_max_left _ _
  rcases Int.even_or_odd n with ⟨m, rfl⟩ | ⟨m, rfl⟩
  · have hfl : ⌊((m + m : ℤ) : ℚ) / 2⌋ = m := by
      push_cast
      rw [show ((m : ℚ) + m) / 2 = (m : ℚ) by ring]
      exact Int.floor_intCast m
    have hcond : ((m + m : ℤ) : ℚ) - 2 * ⌊((m + m : ℤ) : ℚ) / 2⌋ = 0 := by
      rw [hfl]; push_cast; ring
    refine ⟨max 1 m, ?_, h2⟩
    rw [evenFloor, if_pos hcond]
    rcases le_total m 1 with hm | hm
    · have hmq : (m : ℚ) ≤ 1 := by exact_mod_cast hm
      rw [max_eq_left hm, max_eq_left (by push_cast; linarith)]
      norm_num
    · have hmq : (1 : ℚ) ≤ (m : ℚ) := by exact_mod_cast hm
      rw [max_eq_right hm, max_eq_right (by push_cast; linarith)]
      push_cast; ring
  · have hfl : ⌊((2 * m + 1 : ℤ) : ℚ) / 2⌋ = m := by
      push_cast
      rw [show (2 * (m : ℚ) + 1) / 2 = 1 / 2 + (m : ℚ) by ring, Int.floor_add_int]
      norm_num
    have hcond : ¬ ((2 * m + 1 : ℤ) : ℚ) - 2 * ⌊((2 * m + 1 : ℤ) : ℚ) / 2⌋ = 0 := by
      rw [hfl]; push_cast; intro hc; linarith
    refine ⟨max 1 m, ?_, h2⟩
    rw [evenFloor, if_neg hcond]
    rcases le_total m 1 with hm | hm
    · have hmq : (m : ℚ) ≤ 1 := by exact_mod_cast hm
      rw [max_eq_left hm, max_eq_left (by push_cast; linarith)]
      norm_num
    · have hmq : (1 : ℚ) ≤ (m : ℚ) := by exact_mod_cast hm
      rw [max_eq_right hm, max_eq_right (by push_cast; linarith)]
      push_cast; ring

theorem abs_jsRound_sub_le (q : ℚ) : |(jsRound q : ℚ) - q| ≤ 1 / 2 := by
  rw [jsRound, abs_le]
  constructor
  · linarith [Int.lt_floor_add_one (q + 1 / 2)]
  · linarith [Int.floor_le (q + 1 / 2)]

theorem abs_jsRound_mul_sub_le (w S : ℚ) (hS : 0 < S) :
    |(jsRound w : ℚ) * S - w * S| ≤ S / 2 := by
  rw [← sub_mul, abs_mul, abs_of_pos hS]
  calc |(jsRound w : ℚ) - w| * S ≤ 1 / 2 * S :=
        mul_le_mul_of_nonneg_right (abs_jsRound_sub_le w) hS.le
    _ = S / 2 := by ring

/-- C3 refuted as stated, at two reachable inputs.  On `cexCoverClip`, the
emitted crop (rounded to whole pixels, width `100`), multiplied by the
derived scale factor `10`, gives `1000`, which misses the scale target
`998` by `2` pixels — more than the claimed 1-pixel tolerance (the rounding
error of up to half a source pixel scales by `sf`).  On `cexFracClip`,
whose `x = 0.5` is non-integer (the properties panel sets x/y with
`parseFloat`), the scale-target width is `evenFloor 1079.5 = 1078.5`, not
an even integer at all. -/

theorem cover_crop_tolerance_counterexample :
    (computeCoverGeom cexCoverClip 100 100 1080 1920).fw = 998 ∧
    ((computeCoverGeom cexCoverClip 100 100 1080 1920).cropW : ℚ) * (computeCoverGeom cexCoverClip 100 100 1080 1920).sf = 1000 ∧
    ¬ |((computeCoverGeom cexCoverClip 100 100 1080 1920).cropW : ℚ) * (computeCoverGeom cexCoverClip 100 100 1080 1920).sf - (computeCoverGeom cexCoverClip 100 100 1080 1920).fw| ≤ 1 ∧
    (computeCoverGeom cexFracClip 100 100 1080 1920).fw = 2157 / 2 ∧
    ¬ IsInt (computeCoverGeom cexFracClip 100 100 1080 1920).fw := by
  have h1 : (computeCoverGeom cexCoverClip 100 100 1080 1920).fw = 998 := by
    norm_num [computeCoverGeom, jsOr, evenFloor, cexCoverClip]
  have h2 : ((computeCoverGeom cexCoverClip 100 100 1080 1920).cropW : ℚ) * (computeCoverGeom cexCoverClip 100 100 1080 1920).sf = 1000 := by
    norm_num [computeCoverGeom, jsOr, evenFloor, jsRound, cexCoverClip]
  have h3 : (computeCoverGeom cexFracClip 100 100 1080 1920).fw = 2157 / 2 := by
    norm_num [computeCoverGeom, jsOr, evenFloor, cexFracClip]
  have h4 : ¬ IsInt (computeCoverGeom cexFracClip 100 100 1080 1920).fw := by
    rw [h3]
    rintro ⟨n, hn⟩
    have h5 : (2157 : ℚ) = 2 * (n : ℚ) := by linarith [hn]
    have h6 : (2157 : ℤ) = 2 * n := by exact_mod_cast h5
    omega
  refine ⟨h1, h2, ?_, h3, h4⟩
  rw [h1, h2, show |(1000 : ℚ) - 998| = 2 by rw [show (1000 : ℚ) - 998 = 2 by norm_num]; exact abs_of_pos (by norm_num)]
  norm_num

/-- C3 (amended): the overlay position is `(max 0 x, max 0 y)`
unconditionally; with integer declared geometry the scale target `fw × fh`
consists of even integers `≥ 2` (for non-integer coordinates — reachable
through the properties panel's `parseFloat` fields — the target need not be
an integer, as `cover_crop_tolerance_counterexample` exhibits); and
whenever neither the source bounds nor the 1-pixel floor clamp the
reverse-mapped crop, the *unrounded* crop dimensions multiplied by the
scale factor equal the scale target exactly, while the emitted whole-pixel
crop times the scale factor deviates from the scale target by at most
`sf/2` (not by 1 pixel). -/

theorem cover_geometry_spec (clip : Clip) (srcW srcH outW outH : ℚ)
    (hx : IsInt clip.x) (hy : IsInt clip.y) (hw : IsInt clip.width) (hh : IsInt clip.height)
    (how : IsInt outW) (hoh : IsInt outH) :
    (∃ k : ℤ, (computeCoverGeom clip srcW srcH outW outH).fw = 2 * k ∧ 2 ≤ (computeCoverGeom clip srcW srcH outW outH).fw) ∧
    (∃ k : ℤ, (computeCoverGeom clip srcW srcH outW outH).fh = 2 * k ∧ 2 ≤ (computeCoverGeom clip srcW srcH outW outH).fh) ∧
    (computeCoverGeom clip srcW srcH outW outH).overlayX = max 0 clip.x ∧
    (computeCoverGeom clip srcW srcH outW outH).overlayY = max 0 clip.y ∧
    (0 < (computeCoverGeom clip srcW srcH outW outH).sf →
      1 ≤ (computeCoverGeom clip srcW srcH outW outH).fw / (computeCoverGeom clip srcW srcH outW outH).sf →
      (computeCoverGeom clip srcW srcH outW outH).fw / (computeCoverGeom clip srcW srcH outW outH).sf ≤ srcW - (computeCoverGeom clip srcW srcH outW outH).srcCropX →
      (computeCoverGeom clip srcW srcH outW outH).srcCropW * (computeCoverGeom clip srcW srcH outW outH).sf = (computeCoverGeom clip srcW srcH outW outH).fw) ∧
    (0 < (computeCoverGeom clip srcW srcH outW outH).sf →
      1 ≤ (computeCoverGeom clip srcW srcH outW outH).fh / (computeCoverGeom clip srcW srcH outW outH).sf →
      (computeCoverGeom clip srcW srcH outW outH).fh / (computeCoverGeom clip srcW srcH outW outH).sf ≤ srcH - (computeCoverGeom clip srcW srcH outW outH).srcCropY →
      (computeCoverGeom clip srcW srcH outW outH).srcCropH * (computeCoverGeom clip srcW srcH outW outH).sf = (computeCoverGeom clip srcW srcH outW outH).fh) ∧
    (0 < (computeCoverGeom clip srcW srcH outW outH).sf →
      1 ≤ (computeCoverGeom clip srcW srcH outW outH).fw / (computeCoverGeom clip srcW srcH outW outH).sf →
      (computeCoverGeom clip srcW srcH outW outH).fw / (computeCoverGeom clip srcW srcH outW outH).sf ≤ srcW - (computeCoverGeom clip srcW srcH outW outH).srcCropX →
      |((computeCoverGeom clip srcW srcH outW outH).cropW : ℚ) * (computeCoverGeom clip srcW srcH outW outH).sf - (computeCoverGeom clip srcW srcH outW outH).fw| ≤ (computeCoverGeom clip srcW srcH outW outH).sf / 2) ∧
    (0 < (computeCoverGeom clip srcW srcH outW outH).sf →
      1 ≤ (computeCoverGeom clip srcW srcH outW outH).fh / (computeCoverGeom clip srcW srcH outW outH).sf →
      (computeCoverGeom clip srcW srcH outW outH).fh / (computeCoverGeom clip srcW srcH outW outH).sf ≤ srcH - (computeCoverGeom clip srcW srcH outW outH).srcCropY →
      |((computeCoverGeom clip srcW srcH outW outH).cropH : ℚ) * (computeCoverGeom clip srcW srcH outW outH).sf - (computeCoverGeom clip srcW srcH outW outH).fh| ≤ (computeCoverGeom clip srcW srcH outW outH).sf / 2) := by
  have h0 : IsInt (0 : ℚ) := ⟨0, by norm_num⟩
  have h1 : IsInt (1 : ℚ) := ⟨1, by norm_num⟩
  have hcx : IsInt (jsOr clip.x 0) := isInt_jsOr hx h0
  have hcy : IsInt (jsOr clip.y 0) := isInt_jsOr hy h0
  have hsw : IsInt (jsOr clip.width outW) := isInt_jsOr hw how
  have hsh : IsInt (jsOr clip.height outH) := isInt_jsOr hh hoh
  refine ⟨?_, ?_, ?_, ?_, ?_, ?_, ?_, ?_⟩
  · have hfw : (computeCoverGeom clip srcW srcH outW outH).fw = evenFloor (max 1 (min outW (jsOr clip.x 0 + jsOr clip.width outW) - max 0 (jsOr clip.x 0))) := rfl
    rw [hfw]
    exact evenFloor_int (IsInt.max h1 (IsInt.sub (IsInt.min how (IsInt.add hcx hsw)) (IsInt.max h0 hcx)))
  · have hfh : (computeCoverGeom clip srcW srcH outW outH).fh = evenFloor (max 1 (min outH (jsOr clip.y 0 + jsOr clip.height outH) - max 0 (jsOr clip.y 0))) := rfl
    rw [hfh]
    exact evenFloor_int (IsInt.max h1 (IsInt.sub (IsInt.min hoh (IsInt.add hcy hsh)) (IsInt.max h0 hcy)))
  · have hov : (computeCoverGeom clip srcW srcH outW outH).overlayX = max 0 (jsOr clip.x 0) := rfl
    rw [hov, jsOr_zero]
  · have hov : (computeCoverGeom clip srcW srcH outW outH).overlayY = max 0 (jsOr clip.y 0) := rfl
    rw [hov, jsOr_zero]
  · intro hsf hlo hhi
    have hW : (computeCoverGeom clip srcW srcH outW outH).srcCropW = max 1 (min (srcW - (computeCoverGeom clip srcW srcH outW outH).srcCropX) ((computeCoverGeom clip srcW srcH outW outH).fw / (computeCoverGeom clip srcW srcH outW outH).sf)) := rfl
    rw [hW, min_eq_right hhi, max_eq_right hlo, div_mul_cancel₀ _ (ne_of_gt hsf)]
  · intro hsf hlo hhi
    have hH : (computeCoverGeom clip srcW srcH outW outH).srcCropH = max 1 (min (srcH - (computeCoverGeom clip srcW srcH outW outH).srcCropY) ((computeCoverGeom clip srcW srcH outW outH).fh / (computeCoverGeom clip srcW srcH outW outH).sf)) := rfl
    rw [hH, min_eq_right hhi, max_eq_right hlo, div_mul_cancel₀ _ (ne_of_gt hsf)]
  · intro hsf hlo hhi
    have hW : (computeCoverGeom clip srcW srcH outW outH).srcCropW = max 1 (min (srcW - (computeCoverGeom clip srcW srcH outW outH).srcCropX) ((computeCoverGeom clip srcW srcH outW outH).fw / (computeCoverGeom clip srcW srcH outW outH).sf)) := rfl
    have hval : (computeCoverGeom clip srcW srcH outW outH).srcCropW = (computeCoverGeom clip srcW srcH outW outH).fw / (computeCoverGeom clip srcW srcH outW outH).sf := by
      rw [hW, min_eq_right hhi, max_eq_right hlo]
    have hcw : (computeCoverGeom clip srcW srcH outW outH).cropW = jsRound ((computeCoverGeom clip srcW srcH outW outH).srcCropW) := rfl
    have hb := abs_jsRound_mul_sub_le ((computeCoverGeom clip srcW srcH outW outH).fw / (computeCoverGeom clip srcW srcH outW outH).sf) ((computeCoverGeom clip srcW srcH outW outH).sf) hsf
    rw [div_mul_cancel₀ _ (ne_of_gt hsf)] at hb
    rw [hcw, hval]
    exact hb
  · intro hsf hlo hhi
    have hH : (computeCoverGeom clip srcW srcH outW outH).srcCropH = max 1 (min (srcH - (computeCoverGeom clip srcW srcH outW outH).srcCropY) ((computeCoverGeom clip srcW srcH outW outH).fh / (computeCoverGeom clip srcW srcH outW outH).sf)) := rfl
    have hval : (computeCoverGeom clip srcW srcH outW outH).srcCropH = (computeCoverGeom clip srcW srcH outW outH).fh / (computeCoverGeom clip srcW srcH outW outH).sf := by
      rw [hH, min_eq_right hhi, max_eq_right hlo]
    have hch : (computeCoverGeom clip srcW srcH outW outH).cropH = jsRound ((computeCoverGeom clip srcW srcH outW outH).srcCropH) := rfl
    have hb := abs_jsRound_mul_sub_le ((computeCoverGeom clip srcW srcH outW outH).fh / (computeCoverGeom clip srcW srcH outW outH).sf) ((computeCoverGeom clip srcW srcH outW outH).sf) hsf
    rw [div_mul_cancel₀ _ (ne_of_gt hsf)] at hb
    rw [hch, hval]
    exact hb

/-- Concrete check of `cover_geometry_spec` on the spec's scenario 1
(`1920×1080` source on a `1080×1920` canvas): even scale target `1080×1920`,
overlay `(0,0)`, the unrounded crop times the scale factor hits the target
exactly, and the emitted crop deviates by at most `sf/2`. -/

theorem cover_geometry_spec_witness :
    (∃ k : ℤ, (computeCoverGeom sc1Clip 1920 1080 1080 1920).fw = 2 * k ∧ 2 ≤ (computeCoverGeom sc1Clip 1920 1080 1080 1920).fw) ∧
    (computeCoverGeom sc1Clip 1920 1080 1080 1920).overlayX = max 0 sc1Clip.x ∧
    (computeCoverGeom sc1Clip 1920 1080 1080 1920).srcCropW * (computeCoverGeom sc1Clip 1920 1080 1080 1920).sf = (computeCoverGeom sc1Clip 1920 1080 1080 1920).fw ∧
    |((computeCoverGeom sc1Clip 1920 1080 1080 1920).cropW : ℚ) * (computeCoverGeom sc1Clip 1920 1080 1080 1920).sf - (computeCoverGeom sc1Clip 1920 1080 1080 1920).fw| ≤ (computeCoverGeom sc1Clip 1920 1080 1080 1920).sf / 2 := by
  obtain ⟨he, -, hox, -, hexact, -, hbound, -⟩ := cover_geometry_spec sc1Clip 1920 1080 1080 1920 ⟨0, by norm_num [sc1Clip]⟩ ⟨0, by norm_num [sc1Clip]⟩ ⟨1080, by norm_num [sc1Clip]⟩ ⟨1920, by norm_num [sc1Clip]⟩ ⟨1080, by norm_num⟩ ⟨1920, by norm_num⟩
  refine ⟨he, hox, hexact ?_ ?_ ?_, hbound ?_ ?_ ?_⟩
  · norm_num [computeCoverGeom, jsOr, sc1Clip]
  · norm_num [computeCoverGeom, jsOr, evenFloor, sc1Clip]
  · norm_num [computeCoverGeom, jsOr, evenFloor, sc1Clip]
  · norm_num [computeCoverGeom, jsOr, sc1Clip]
  · norm_num [computeCoverGeom, jsOr, evenFloor, sc1Clip]
  · norm_num [computeCoverGeom, jsOr, evenFloor, sc1Clip]
